import Mathlib

/-!
Formal model of the VDC Genesis ledger engine and validation pipeline
(source: vdc.py), with theorems checking the specification's claims.

Modelling conventions:
- Python floats are embedded as exact rationals (ℚ).  Python's
  round(x, n) (round-half-to-even) is modelled by roundHalfEven / round8
  acting on the exact rational value.
- File I/O is modelled by explicit state passing: the ledger file content
  is a value of type Option (List Block); the atomic-write sequence is a
  list of observable filesystem states.
- The cryptographic digest (hashlib.sha256(...).hexdigest(), an external
  library call) is modelled as an abstract function sha : String → String;
  all hash-chain theorems are proved for every such function, hence in
  particular for SHA-256.  The canonical serialization performed by
  json.dumps(data, sort_keys=True) is modelled concretely by the JVal
  type and its renderer below (number rendering abstracts Python's float
  repr, preserving the canonical deterministic structure).
- Fallible code paths (indexing the last block of a possibly empty chain,
  exceptions caught in the command handlers) are modelled with Option and
  an explicit outcome type.
-/

namespace VDCGenesis

/-! Core protocol constants of the VDC class (vdc.py lines 19-38). -/

namespace VDC

/-- Issuance rate: 1 VDC per roughly 1,052,632 Joules. -/
def ALPHA_JOULES_TO_VDC : ℚ := 0.00000095

/-- Conversion: 1 kilocalorie = 4184 Joules. -/
def JOULES_PER_KCAL : ℚ := 4184.0

/-- Commodity redemption ratio: grams of gold per VDC. -/
def GOLD_G_PER_VDC : ℚ := 0.000011

/-- Commodity redemption ratio: grams of silk per VDC. -/
def SILK_G_PER_VDC : ℚ := 0.0008

/-- Commodity redemption ratio: grams of tencel per VDC. -/
def TENCEL_G_PER_VDC : ℚ := 0.012

/-- Earth gravity in m/s^2. -/
def GRAVITY : ℚ := 9.81

/-- Default user mass in kg. -/
def DEFAULT_MASS_KG : ℚ := 75.0

/-- Rolling-resistance approximation coefficient. -/
def ROLLING_COEFF : ℚ := 0.005

end VDC

/-- Round a rational to the nearest integer, ties to even: the semantics of
Python's builtin round on exact values (Python rounds the binary double;
the model acts on the exact rational, see the header note). -/
def roundHalfEven (q : ℚ) : ℤ :=
  let f := ⌊q⌋
  let r := q - (f : ℚ)
  if r < 1/2 then f
  else if 1/2 < r then f + 1
  else if f % 2 = 0 then f else f + 1

/-- Python round(x, 8) on the exact rational value. -/
def round8 (q : ℚ) : ℚ :=
  ((roundHalfEven (q * 10 ^ 8) : ℤ) : ℚ) / 10 ^ 8

/-- A rational carrying exactly 8 decimal digits of precision: an integer
multiple of 10⁻⁸.  This is the spec's "decimal(8dp)" datatype of amount,
supply and basket fields. -/
def Is8dp (q : ℚ) : Prop := ∃ n : ℤ, q = (n : ℚ) / 10 ^ 8

/-- A rational exactly representable in binary floating point (every IEEE-754
double is of this form).  Modelled from the spec: the spec's design notes
describe the source's amount fields as Python binary floats, which store
only dyadic rationals sign·m·2^e. -/
def DyadicRepresentable (q : ℚ) : Prop := ∃ (m : ℤ) (e : ℕ), q = (m : ℚ) / 2 ^ e

/-- The validation_proof payload of a MINT transaction (vdc.py lines 132-136). -/
structure ValidationProof where
  protocol : String
  ots_txid : String
  proof_folder : String
deriving DecidableEq

/-- The redemption_basket payload of a BURN transaction (vdc.py lines 153-157). -/
structure RedemptionBasket where
  gold_grams : ℚ
  silk_grams : ℚ
  tencel_grams : ℚ
deriving DecidableEq

/-- Transactions: the tagged variant built by create_mint_tx / create_burn_tx.
The Python dicts carry a type key of MINT or BURN; the two factory shapes are
modelled as the two constructors of a closed sum. -/
inductive Tx where
  | mint (wallet : String) (amount : ℚ) (joules : ℤ) (timestamp : ℕ)
      (vproof : ValidationProof)
  | burn (wallet : String) (amount : ℚ) (basket : RedemptionBasket)
      (shipping_txid : String) (timestamp : ℕ)
deriving DecidableEq

/-- The wallet field of a transaction. -/
def Tx.wallet : Tx → String
  | .mint w _ _ _ _ => w
  | .burn w _ _ _ _ => w

/-- The amount field of a transaction. -/
def Tx.amount : Tx → ℚ
  | .mint _ a _ _ _ => a
  | .burn _ a _ _ _ => a

/-- Whether the type field is MINT. -/
def Tx.isMint : Tx → Bool
  | .mint _ _ _ _ _ => true
  | .burn _ _ _ _ _ => false

/-- Whether the type field is BURN. -/
def Tx.isBurn : Tx → Bool
  | .mint _ _ _ _ _ => false
  | .burn _ _ _ _ _ => true

/-- create_mint_tx (vdc.py lines 123-137): standardized MINT payload. -/
def create_mint_tx (wallet : String) (amount joules : ℚ) (ots_txid proof_name : String)
    (ts : ℕ) : Tx :=
  Tx.mint wallet (round8 amount) (roundHalfEven joules) ts
    { protocol := "PoM", ots_txid := ots_txid, proof_folder := proof_name }

/-- create_burn_tx (vdc.py lines 139-160): standardized BURN payload with the
full commodity basket and a shipping reference derived from the wallet and
the current time. -/
def create_burn_tx (wallet : String) (amount : ℚ) (ts : ℕ) : Tx :=
  Tx.burn wallet (round8 amount)
    { gold_grams := round8 (amount * VDC.GOLD_G_PER_VDC)
      silk_grams := round8 (amount * VDC.SILK_G_PER_VDC)
      tencel_grams := round8 (amount * VDC.TENCEL_G_PER_VDC) }
    ( "SHIP-" ++ wallet.take 8 ++ "-" ++ toString ts) ts

/-- The hashed content of a block: every field except block_hash itself
(the dict new_block_data of vdc.py lines 105-111 before the hash field is
inserted). -/
structure BlockData where
  index : ℕ
  timestamp : ℕ
  txs : List Tx
  supply : ℚ
  prev_hash : String
deriving DecidableEq

/-- A committed block: the hashed content plus its block_hash field. -/
structure Block extends BlockData where
  block_hash : String
deriving DecidableEq

/-- The genesis block written by init_ledger (vdc.py lines 53-60). -/
def genesis_block : Block :=
  { index := 0
    timestamp := 0
    txs := []
    supply := 0.0
    prev_hash := String.mk (List.replicate 64 '0')
    block_hash := "GENESIS_MOONSHOT_NOV2025" }

/-- Sum of the amounts of the MINT transactions of a batch
(vdc.py line 99). -/
def mint_total (transactions : List Tx) : ℚ :=
  ((transactions.filter Tx.isMint).map Tx.amount).sum

/-- Sum of the amounts of the BURN transactions of a batch
(vdc.py line 100). -/
def burn_total (transactions : List Tx) : ℚ :=
  ((transactions.filter Tx.isBurn).map Tx.amount).sum

/-- The new block content built by commit before hash insertion
(vdc.py lines 102-111): next index, batch timestamp, the transactions,
the rounded new supply, and the previous block's committed hash. -/
def new_block_data (transactions : List Tx) (ts : ℕ) (prev_block : Block) : BlockData :=
  { index := prev_block.index + 1
    timestamp := ts
    txs := transactions
    supply := round8 (prev_block.supply + mint_total transactions - burn_total transactions)
    prev_hash := prev_block.block_hash }

/-- The committed block: the content is hashed before the block_hash field is
inserted (vdc.py lines 113-115, the clone taken before mutation), so the
hash argument is exactly new_block_data. -/
def new_block (h : BlockData → String) (transactions : List Tx) (ts : ℕ)
    (prev_block : Block) : Block :=
  { toBlockData := new_block_data transactions ts prev_block
    block_hash := h (new_block_data transactions ts prev_block) }

/-- commit (vdc.py lines 94-119): append a new block built from the last
block of the chain.  The hash pipeline (serialize then digest) is the
parameter h; indexing the last block of an empty chain would raise in
Python, modelled by none.  Returns the new block and the new chain, which
the source persists wholesale via atomic_write. -/
def commit (h : BlockData → String) (transactions : List Tx) (ts : ℕ)
    (chain : List Block) : Option (Block × List Block) :=
  chain.getLast?.map fun prev_block =>
    (new_block h transactions ts prev_block,
      chain ++ [new_block h transactions ts prev_block])

/-- init_ledger (vdc.py lines 48-61): a no-op when the ledger file exists,
otherwise creates the one-block genesis chain.  The result is the ledger
file content after the call. -/
def init_ledger (file : Option (List Block)) : List Block :=
  match file with
  | some chain => chain
  | none => [genesis_block]

/-- load_chain (vdc.py lines 63-71): initializes if the file is missing, then
returns the parsed chain (parse failure of an existing file is the fatal
LedgerCorrupt path, outside the structured state modelled here). -/
def load_chain (file : Option (List Block)) : List Block :=
  match file with
  | none => init_ledger none
  | some chain => chain

/-- get_current_supply (vdc.py lines 73-75): the supply field of the last
block; none models the crash on an empty chain. -/
def get_current_supply (chain : List Block) : Option ℚ :=
  chain.getLast?.map (·.supply)

/-- One step of the balance loop of get_balance (vdc.py lines 81-86). -/
def tx_apply (wallet : String) (balance : ℚ) (t : Tx) : ℚ :=
  if t.wallet = wallet then
    match t with
    | .mint _ _ _ _ _ => balance + t.amount
    | .burn _ _ _ _ _ => balance - t.amount
  else balance

/-- get_balance (vdc.py lines 77-87): replay every transaction addressed to
the wallet across the full chain, then round to 8 decimal places. -/
def get_balance (wallet : String) (chain : List Block) : ℚ :=
  round8 (chain.foldl (fun balance b => b.txs.foldl (tx_apply wallet) balance) 0.0)

/-- The kinematic cross-check estimate of compute_joules
(vdc.py lines 212-216): potential energy plus rolling-friction work. -/
def kinematic_joules (distance_m elevation_m user_mass_kg gravity : ℚ) : ℚ :=
  let potential_joules := user_mass_kg * gravity * elevation_m
  let friction_force := user_mass_kg * gravity * VDC.ROLLING_COEFF
  let friction_joules := friction_force * distance_m
  potential_joules + friction_joules

/-- The divergence (anti-spoofing) gate of compute_joules (vdc.py lines
226-231).  Python's expression kinematic_joules or 1 yields 1 exactly when
kinematic_joules is falsy, that is equal to 0; otherwise it yields
kinematic_joules itself, whatever its sign or size. -/
def divergence_violation (distance_m elevation_m user_mass_kg gravity active_kcal : ℚ) :
    Bool :=
  let total_joules := active_kcal * VDC.JOULES_PER_KCAL
  let kj := kinematic_joules distance_m elevation_m user_mass_kg gravity
  let kinematic_quotient := total_joules / (if kj = 0 then 1 else kj)
  if kinematic_quotient > 1000 ∧ kj < 10000 then true else false

/-- The divergence gate as the specification words it: reject when the
quotient workJoules / max(kinematicJoules, 1) exceeds 1000 and
kinematicJoules < 10000.  Stated from the spec's words for comparison with
divergence_violation, which is translated from the source. -/
def spec_divergence_reject (distance_m elevation_m user_mass_kg gravity active_kcal : ℚ) :
    Prop :=
  active_kcal * VDC.JOULES_PER_KCAL
      / max (kinematic_joules distance_m elevation_m user_mass_kg gravity) 1 > 1000
    ∧ kinematic_joules distance_m elevation_m user_mass_kg gravity < 10000

/-- compute_joules (vdc.py lines 201-234): primary work from active energy,
then the two validation gates; returns the primary joules and the
accept/reject flag.  is_valid starts true and each failed gate sets it
false, mirrored by shadowing lets. -/
def compute_joules (distance_m elevation_m user_mass_kg gravity active_kcal : ℚ) :
    ℚ × Bool :=
  let total_joules := active_kcal * VDC.JOULES_PER_KCAL
  let is_valid := true
  let is_valid := if total_joules < 100000 then false else is_valid
  let is_valid :=
    if divergence_violation distance_m elevation_m user_mass_kg gravity active_kcal then
      false
    else is_valid
  (total_joules, is_valid)

/-- Outcome of handle_redeem: rejection with insufficient balance, a
committed burn, or the caught commit exception path. -/
inductive RedeemOutcome where
  | insufficient_balance
  | committed (blk : Block)
  | commit_failure
deriving DecidableEq

/-- handle_redeem (vdc.py lines 280-296): check the derived balance; if it is
below the requested amount reject with no ledger change, otherwise build the
single BURN transaction and commit it.  The pair returned is the outcome and
the resulting ledger content. -/
def handle_redeem (h : BlockData → String) (wallet : String) (amount : ℚ) (ts : ℕ)
    (chain : List Block) : RedeemOutcome × List Block :=
  let balance := get_balance wallet chain
  if balance < amount then (RedeemOutcome.insufficient_balance, chain)
  else
    match commit h [create_burn_tx wallet amount ts] ts chain with
    | some (blk, chain2) => (RedeemOutcome.committed blk, chain2)
    | none => (RedeemOutcome.commit_failure, chain)

/-- The observable filesystem state: content of the ledger path and of the
temporary path used by atomic_write. -/
structure FsState where
  ledger : Option (List Block)
  tmp : Option (List Block)
deriving DecidableEq

/-- First step of atomic_write (vdc.py line 45): the serialized chain is
written to the temporary path; the ledger path is untouched. -/
def write_tmp (s : FsState) (chain : List Block) : FsState :=
  { s with tmp := some chain }

/-- Second step of atomic_write (vdc.py line 46): tmp.replace(path).
Modelled from the spec: the OS rename is a single atomic transition that
installs the temporary file's content at the ledger path. -/
def replace_tmp (s : FsState) : FsState :=
  match s.tmp with
  | some content => { ledger := some content, tmp := none }
  | none => s

/-- atomic_write (vdc.py lines 42-46): write the temporary file, then
atomically replace the destination. -/
def atomic_write (s : FsState) (chain : List Block) : FsState :=
  replace_tmp (write_tmp s chain)

/-- The observable filesystem states traversed by atomic_write: before the
call, after the temporary file is fully written (the crash point of the
spec's durability test), and after the atomic replace. -/
def atomic_write_trace (s : FsState) (chain : List Block) : List FsState :=
  [s, write_tmp s chain, atomic_write s chain]

/-- A commit as seen by the filesystem (vdc.py lines 96 and 117-118): load
the chain from the ledger path, build the new chain, persist it wholesale
through atomic_write; the value is the list of observable states. -/
def commit_trace (h : BlockData → String) (transactions : List Tx) (ts : ℕ)
    (s : FsState) : Option (List FsState) :=
  (commit h transactions ts (load_chain s.ledger)).map fun bc =>
    atomic_write_trace s bc.2

/-- JSON values, the serialization domain of json.dumps as used by
hash_block_data (strings, numbers, arrays, objects). -/
inductive JVal where
  | str (s : String)
  | int (n : ℤ)
  | rat (q : ℚ)
  | arr (elems : List JVal)
  | obj (fields : List (String × JVal))

/-- Lexicographic code-point order on character lists: the order in which
Python sorts string keys. -/
def le_chars : List Char → List Char → Bool
  | [], _ => true
  | _ :: _, [] => false
  | a :: as, b :: bs =>
      if a.toNat < b.toNat then true
      else if b.toNat < a.toNat then false
      else le_chars as bs

/-- Lexicographic code-point order on strings. -/
def key_le (a b : String) : Bool :=
  le_chars a.data b.data

/-- Insert a key/value pair into a key-sorted association list. -/
def insert_key (p : String × JVal) : List (String × JVal) → List (String × JVal)
  | [] => [p]
  | q :: rest => if key_le p.1 q.1 then p :: q :: rest else q :: insert_key p rest

/-- Sort an association list by key (the deterministic key ordering of
json.dumps with sort_keys=True). -/
def sort_keys (l : List (String × JVal)) : List (String × JVal) :=
  l.foldr insert_key []

mutual

/-- Recursively sort every object of a JSON value by key: the canonical form
produced by json.dumps(data, sort_keys=True). -/
def sortJ : JVal → JVal
  | .str s => .str s
  | .int n => .int n
  | .rat q => .rat q
  | .arr l => .arr (sortJList l)
  | .obj l => .obj (sort_keys (sortJFields l))

/-- sortJ mapped over array elements. -/
def sortJList : List JVal → List JVal
  | [] => []
  | x :: xs => sortJ x :: sortJList xs

/-- sortJ mapped over object values. -/
def sortJFields : List (String × JVal) → List (String × JVal)
  | [] => []
  | (k, v) :: xs => (k, sortJ v) :: sortJFields xs

end

/-- Rendering of a number: stands for Python's repr of the value inside
json.dumps (modelled canonically from the exact rational; the model only
relies on this rendering being a fixed deterministic function). -/
def ratRepr (q : ℚ) : String :=
  toString q.num ++ "/" ++ toString q.den

mutual

/-- Render a JSON value with the separators of json.dumps. -/
def renderJ : JVal → String
  | .str s => "\"" ++ s ++ "\""
  | .int n => toString n
  | .rat q => ratRepr q
  | .arr l => "[" ++ renderJList l ++ "]"
  | .obj l => "\x7b" ++ renderJFields l ++ "\x7d"

/-- Render array elements, comma-separated. -/
def renderJList : List JVal → String
  | [] => ""
  | [x] => renderJ x
  | x :: y :: xs => renderJ x ++ ", " ++ renderJList (y :: xs)

/-- Render object fields, comma-separated, key then colon then value. -/
def renderJFields : List (String × JVal) → String
  | [] => ""
  | [(k, v)] => "\"" ++ k ++ "\": " ++ renderJ v
  | (k, v) :: y :: xs => "\"" ++ k ++ "\": " ++ renderJ v ++ ", " ++ renderJFields (y :: xs)

end

/-- json.dumps(data, sort_keys=True) (vdc.py line 91): the canonical
serialization, with deterministic key ordering at every level. -/
def dumps_sorted (v : JVal) : String :=
  renderJ (sortJ v)

/-- hash_block_data, source name _hash_block_data (vdc.py lines 89-92):
canonical serialization followed by the digest.  The digest
hashlib.sha256(...).hexdigest() is the abstract parameter sha (an external
library primitive); the theorems below hold for every digest function,
in particular SHA-256. -/
def hash_block_data (sha : String → String) (data : JVal) : String :=
  sha (dumps_sorted data)

/-- The validation_proof dict of a MINT transaction, in source insertion
order (vdc.py lines 132-136). -/
def validation_proof_json (p : ValidationProof) : JVal :=
  JVal.obj [( "protocol", JVal.str p.protocol),
    ( "ots_txid", JVal.str p.ots_txid),
    ( "proof_folder", JVal.str p.proof_folder)]

/-- The redemption_basket dict of a BURN transaction (vdc.py lines 153-157). -/
def basket_json (b : RedemptionBasket) : JVal :=
  JVal.obj [( "gold_grams", JVal.rat b.gold_grams),
    ( "silk_grams", JVal.rat b.silk_grams),
    ( "tencel_grams", JVal.rat b.tencel_grams)]

/-- A transaction as its Python dict, in source insertion order
(vdc.py lines 125-137 and 147-160). -/
def tx_json : Tx → JVal
  | .mint wallet amount joules ts vp =>
      JVal.obj [( "type", JVal.str ( "MINT")),
        ( "wallet", JVal.str wallet),
        ( "amount", JVal.rat amount),
        ( "asset", JVal.str ( "VDC")),
        ( "joules", JVal.int joules),
        ( "timestamp", JVal.int (ts : ℤ)),
        ( "validation_proof", validation_proof_json vp)]
  | .burn wallet amount basket ship ts =>
      JVal.obj [( "type", JVal.str ( "BURN")),
        ( "wallet", JVal.str wallet),
        ( "amount", JVal.rat amount),
        ( "asset", JVal.str ( "VDC")),
        ( "commodity_redeemed", JVal.str ( "BOUNDED_BASKET")),
        ( "redemption_basket", basket_json basket),
        ( "shipping_txid", JVal.str ship),
        ( "timestamp", JVal.int (ts : ℤ))]

/-- The field list of the new_block_data dict, in source insertion order
(vdc.py lines 105-111): block_hash is not present. -/
def block_dict (d : BlockData) : List (String × JVal) :=
  [( "index", JVal.int (d.index : ℤ)),
    ( "timestamp", JVal.int (d.timestamp : ℤ)),
    ( "txs", JVal.arr (d.txs.map tx_json)),
    ( "supply", JVal.rat d.supply),
    ( "prev_hash", JVal.str d.prev_hash)]

/-- The block content dict without its block_hash field: the argument the
source feeds to _hash_block_data. -/
def block_data_json (d : BlockData) : JVal :=
  JVal.obj (block_dict d)

/-- A block dict that already contains a block_hash value (the Python dict
after the mutation of vdc.py line 115, or a dict holding a placeholder or
stale hash).  The dict type admits it: nothing structural distinguishes it
from the unhashed form. -/
def block_json_with_hash (d : BlockData) (bh : String) : JVal :=
  JVal.obj (block_dict d ++ [( "block_hash", JVal.str bh)])

/-- The full hash pipeline over the block content without its hash field:
canonical serialization of the five fields, then the digest. -/
def json_block_hash (sha : String → String) (d : BlockData) : String :=
  hash_block_data sha (block_data_json d)

/-- The chains obtainable from the genesis ledger by a sequence of commits
(the append-only lifecycle: init_ledger then commit, each commit persisting
through atomic_write). -/
inductive Reachable (h : BlockData → String) : List Block → Prop where
  | genesis : Reachable h [genesis_block]
  | step {chain : List Block} {transactions : List Tx} {ts : ℕ} {b : Block}
      {chain2 : List Block} : Reachable h chain →
      commit h transactions ts chain = some (b, chain2) → Reachable h chain2

/-- The relation between a block and its successor produced by commit:
hash linking, index increment, rounded supply derivation, and the hash
computed over the content without its hash field. -/
def StepRel (h : BlockData → String) (a b : Block) : Prop :=
  b.prev_hash = a.block_hash ∧
  b.index = a.index + 1 ∧
  b.supply = round8 (a.supply + mint_total b.txs - burn_total b.txs) ∧
  b.block_hash = h b.toBlockData

/-- Sum of all MINT amounts across a whole chain. -/
def chain_mint_total (chain : List Block) : ℚ :=
  (chain.map fun b => mint_total b.txs).sum

/-- Sum of all BURN amounts across a whole chain. -/
def chain_burn_total (chain : List Block) : ℚ :=
  (chain.map fun b => burn_total b.txs).sum

/-- A concrete digest function used by witnesses. -/
def h0 : BlockData → String := fun _ => "H0"

/-- The identity digest used by serialization witnesses. -/
def sha_id : String → String := fun s => s

/-- A concrete 8dp MINT transaction used by witnesses. -/
def tx1 : Tx :=
  create_mint_tx ( "VDC_BRANDON_001") 1 2510400 ( "BTC-OTS-DEADBEEF")
    ( "VDC_BRANDON_001_ab12cd34") 5

/-- The block committed on top of genesis with tx1 and the digest h0. -/
def blk1 : Block := new_block h0 [tx1] 7 genesis_block

/-- A two-block chain reached by one commit with the digest h0. -/
def demo_chain1 : List Block := [genesis_block, blk1]

/-- The block committed on top of genesis with tx1 and the serialization
pipeline with the identity digest. -/
def blk2 : Block := new_block (json_block_hash sha_id) [tx1] 7 genesis_block

/-- A two-block chain reached by one commit under the serialization
pipeline. -/
def demo_chain2 : List Block := [genesis_block, blk2]

/-- A concrete filesystem state holding the genesis ledger. -/
def fs0 : FsState := { ledger := some [genesis_block], tmp := none }

/-- Concrete block content used by the hashing-paradox counterexample. -/
def demo_data : BlockData :=
  { index := 1, timestamp := 0, txs := [], supply := 0, prev_hash := "aa" }

/-! Helper lemmas: rounding, 8dp arithmetic, commit characterization, and
the structural invariants of reachable chains. -/

lemma roundHalfEven_intCast (n : ℤ) : roundHalfEven ((n : ℚ)) = n := by
  simp [roundHalfEven]

lemma round8_is8dp (q : ℚ) : Is8dp (round8 q) :=
  ⟨roundHalfEven (q * 10 ^ 8), rfl⟩

lemma Is8dp.round8_eq {q : ℚ} (hq : Is8dp q) : round8 q = q := by
  obtain ⟨n, rfl⟩ := hq
  have h1 : ((n : ℚ) / 10 ^ 8) * 10 ^ 8 = (n : ℚ) := by
    field_simp
  rw [round8, h1, roundHalfEven_intCast]

lemma Is8dp.zero : Is8dp 0 :=
  ⟨0, by norm_num⟩

lemma Is8dp.add {a b : ℚ} (ha : Is8dp a) (hb : Is8dp b) : Is8dp (a + b) := by
  obtain ⟨n, rfl⟩ := ha
  obtain ⟨m, rfl⟩ := hb
  exact ⟨n + m, by push_cast; ring⟩

lemma Is8dp.sub {a b : ℚ} (ha : Is8dp a) (hb : Is8dp b) : Is8dp (a - b) := by
  obtain ⟨n, rfl⟩ := ha
  obtain ⟨m, rfl⟩ := hb
  exact ⟨n - m, by push_cast; ring⟩

lemma Is8dp.list_sum {l : List ℚ} (h : ∀ x ∈ l, Is8dp x) : Is8dp l.sum := by
  induction l with
  | nil => simpa using Is8dp.zero
  | cons x xs ih =>
      rw [List.sum_cons]
      exact (h x (List.mem_cons_self x xs)).add (ih fun y hy => h y (List.mem_cons_of_mem x hy))

lemma mint_total_is8dp {transactions : List Tx}
    (h : ∀ t ∈ transactions, Is8dp t.amount) : Is8dp (mint_total transactions) := by
  refine Is8dp.list_sum ?_
  intro x hx
  obtain ⟨t, ht, rfl⟩ := List.mem_map.mp hx
  exact h t (List.mem_of_mem_filter ht)

lemma burn_total_is8dp {transactions : List Tx}
    (h : ∀ t ∈ transactions, Is8dp t.amount) : Is8dp (burn_total transactions) := by
  refine Is8dp.list_sum ?_
  intro x hx
  obtain ⟨t, ht, rfl⟩ := List.mem_map.mp hx
  exact h t (List.mem_of_mem_filter ht)

lemma genesis_supply : genesis_block.supply = 0 := by
  norm_num [genesis_block]

lemma mem_of_getLast?_eq {α : Type _} {l : List α} {a : α}
    (h : l.getLast? = some a) : a ∈ l := by
  have hx : a ∈ l.getLast? := by rw [Option.mem_def]; exact h
  obtain ⟨hne, heq⟩ := List.mem_getLast?_eq_getLast hx
  rw [heq]
  exact List.getLast_mem hne

lemma commit_eq_some {h : BlockData → String} {transactions : List Tx} {ts : ℕ}
    {chain : List Block} {b : Block} {chain2 : List Block} :
    commit h transactions ts chain = some (b, chain2) ↔
      ∃ prev, chain.getLast? = some prev ∧ b = new_block h transactions ts prev ∧
        chain2 = chain ++ [b] := by
  constructor
  · intro hc
    obtain ⟨prev, hp, he⟩ := Option.map_eq_some'.mp hc
    cases he
    exact ⟨prev, hp, rfl, rfl⟩
  · rintro ⟨prev, hp, rfl, rfl⟩
    simp [commit, hp]

lemma chain_mint_total_append (chain : List Block) (b : Block) :
    chain_mint_total (chain ++ [b]) = chain_mint_total chain + mint_total b.txs := by
  simp [chain_mint_total]

lemma chain_burn_total_append (chain : List Block) (b : Block) :
    chain_burn_total (chain ++ [b]) = chain_burn_total chain + burn_total b.txs := by
  simp [chain_burn_total]

lemma chain_mint_total_is8dp {chain : List Block}
    (h8 : ∀ b ∈ chain, ∀ t ∈ b.txs, Is8dp t.amount) : Is8dp (chain_mint_total chain) := by
  refine Is8dp.list_sum ?_
  intro x hx
  obtain ⟨b, hb, rfl⟩ := List.mem_map.mp hx
  exact mint_total_is8dp (h8 b hb)

lemma chain_burn_total_is8dp {chain : List Block}
    (h8 : ∀ b ∈ chain, ∀ t ∈ b.txs, Is8dp t.amount) : Is8dp (chain_burn_total chain) := by
  refine Is8dp.list_sum ?_
  intro x hx
  obtain ⟨b, hb, rfl⟩ := List.mem_map.mp hx
  exact burn_total_is8dp (h8 b hb)

lemma Reachable.shape {h : BlockData → String} {c : List Block} (hr : Reachable h c) :
    ∃ r, c = genesis_block :: r := by
  induction hr with
  | genesis => exact ⟨[], rfl⟩
  | @step chain transactions ts b chain2 hr hc ih =>
      obtain ⟨r, rfl⟩ := ih
      obtain ⟨prev, hp, hb, rfl⟩ := commit_eq_some.mp hc
      exact ⟨r ++ [b], rfl⟩

lemma Reachable.head?_eq {h : BlockData → String} {c : List Block} (hr : Reachable h c) :
    c.head? = some genesis_block := by
  obtain ⟨r, rfl⟩ := hr.shape
  rfl

lemma Reachable.ne_nil {h : BlockData → String} {c : List Block} (hr : Reachable h c) :
    c ≠ [] := by
  obtain ⟨r, rfl⟩ := hr.shape
  simp

lemma Reachable.chain' {h : BlockData → String} {c : List Block} (hr : Reachable h c) :
    List.Chain' (StepRel h) c := by
  induction hr with
  | genesis => exact List.chain'_singleton _
  | @step chain transactions ts b chain2 hr hc ih =>
      obtain ⟨prev, hp, hb, rfl⟩ := commit_eq_some.mp hc
      refine List.Chain'.append ih (List.chain'_singleton _) ?_
      intro x hx y hy
      rw [hp] at hx
      simp only [Option.mem_def, Option.some.injEq] at hx
      simp only [List.head?_cons, Option.mem_def, Option.some.injEq] at hy
      subst hx
      subst hy
      subst hb
      exact ⟨rfl, rfl, rfl, rfl⟩

lemma Reachable.supply_is8dp {h : BlockData → String} {c : List Block}
    (hr : Reachable h c) : ∀ b ∈ c, Is8dp b.supply := by
  induction hr with
  | genesis =>
      intro b hb
      simp only [List.mem_singleton] at hb
      subst hb
      exact genesis_supply ▸ Is8dp.zero
  | @step chain transactions ts b chain2 hr hc ih =>
      obtain ⟨prev, hp, hb, rfl⟩ := commit_eq_some.mp hc
      intro x hx
      rcases List.mem_append.mp hx with h1 | h2
      · exact ih x h1
      · simp only [List.mem_singleton] at h2
        subst h2
        subst hb
        exact round8_is8dp _

lemma Reachable.last_supply {h : BlockData → String} {c : List Block}
    (hr : Reachable h c) (h8 : ∀ b ∈ c, ∀ t ∈ b.txs, Is8dp t.amount) :
    ∃ last, c.getLast? = some last ∧
      last.supply = chain_mint_total c - chain_burn_total c := by
  induction hr with
  | genesis =>
      refine ⟨genesis_block, rfl, ?_⟩
      rw [genesis_supply]
      simp [chain_mint_total, chain_burn_total, mint_total, burn_total, genesis_block]
  | @step chain transactions ts b chain2 hr hc ih =>
      obtain ⟨prev, hp, hb, rfl⟩ := commit_eq_some.mp hc
      have h8c : ∀ x ∈ chain, ∀ t ∈ x.txs, Is8dp t.amount :=
        fun x hx => h8 x (List.mem_append_left _ hx)
      obtain ⟨last, hl, hs⟩ := ih h8c
      have hlp : last = prev := by
        rw [hl] at hp
        exact Option.some.inj hp
      subst hlp
      have h8b : ∀ t ∈ b.txs, Is8dp t.amount :=
        h8 b (List.mem_append_right _ (List.mem_singleton_self b))
      have hsup : b.supply = round8 (last.supply + mint_total b.txs - burn_total b.txs) := by
        subst hb
        rfl
      have h8dp : Is8dp (last.supply + mint_total b.txs - burn_total b.txs) :=
        ((hr.supply_is8dp last (mem_of_getLast?_eq hl)).add
          (mint_total_is8dp h8b)).sub (burn_total_is8dp h8b)
      refine ⟨b, List.getLast?_concat _, ?_⟩
      rw [hsup, Is8dp.round8_eq h8dp, hs, chain_mint_total_append, chain_burn_total_append]
      ring

/-! Shared demonstration facts used by the witnesses. -/

lemma demo_commit1 : commit h0 [tx1] 7 [genesis_block] = some (blk1, demo_chain1) := rfl

lemma demo_reachable1 : Reachable h0 demo_chain1 :=
  Reachable.step Reachable.genesis demo_commit1

lemma demo_commit2 :
    commit (json_block_hash sha_id) [tx1] 7 [genesis_block] = some (blk2, demo_chain2) := rfl

lemma demo_reachable2 : Reachable (json_block_hash sha_id) demo_chain2 :=
  Reachable.step Reachable.genesis demo_commit2

lemma demo_h8 : ∀ b ∈ demo_chain1, ∀ t ∈ b.txs, Is8dp t.amount := by
  intro b hb t ht
  simp only [demo_chain1, List.mem_cons, List.mem_singleton, List.not_mem_nil,
    or_false] at hb
  rcases hb with rfl | rfl
  · exact absurd ht (by simp [genesis_block])
  · have htx : t = tx1 := by
      simpa [blk1, new_block, new_block_data] using ht
    subst htx
    exact round8_is8dp 1

/-! Claim theorems. -/

/-- C1: for every chain reached from the genesis ledger by a sequence of
commits whose transaction amounts carry 8 decimal places (the spec's
decimal(8dp) transaction fields, which create_mint_tx and create_burn_tx
guarantee by rounding), the supply of the last block equals the sum of all
MINT amounts minus the sum of all BURN amounts across the whole chain, and
every block's supply equals the previous block's supply plus that block's
mint total minus its burn total. -/
theorem supply_conservation (h : BlockData → String) (c : List Block)
    (hr : Reachable h c) (h8 : ∀ b ∈ c, ∀ t ∈ b.txs, Is8dp t.amount) :
    get_current_supply c = some (chain_mint_total c - chain_burn_total c) ∧
    ∀ i : ℕ, (hi : i + 1 < c.length) →
      (c.get ⟨i + 1, hi⟩).supply =
        (c.get ⟨i, by omega⟩).supply + mint_total (c.get ⟨i + 1, hi⟩).txs
          - burn_total (c.get ⟨i + 1, hi⟩).txs := by
  constructor
  · obtain ⟨last, hl, hs⟩ := hr.last_supply h8
    rw [get_current_supply, hl, Option.map_some', hs]
  · intro i hi
    have hstep := List.chain'_iff_get.mp hr.chain' i (by omega)
    simp only [StepRel] at hstep
    have hsup2 : (c.get ⟨i + 1, hi⟩).supply =
        round8 ((c.get ⟨i, by omega⟩).supply + mint_total (c.get ⟨i + 1, hi⟩).txs
          - burn_total (c.get ⟨i + 1, hi⟩).txs) := hstep.2.2.1
    have h8prev : Is8dp (c.get ⟨i, by omega⟩).supply :=
      hr.supply_is8dp _ (List.get_mem c i (by omega))
    have h8txs : ∀ t ∈ (c.get ⟨i + 1, hi⟩).txs, Is8dp t.amount :=
      h8 _ (List.get_mem c (i + 1) hi)
    rw [hsup2, Is8dp.round8_eq
      ((h8prev.add (mint_total_is8dp h8txs)).sub (burn_total_is8dp h8txs))]

/-- C1 witness: the hypotheses and conclusion of supply_conservation hold at
the concrete two-block chain demo_chain1. -/
theorem supply_conservation_witness :
    (∀ b ∈ demo_chain1, ∀ t ∈ b.txs, Is8dp t.amount) ∧
    get_current_supply demo_chain1 =
      some (chain_mint_total demo_chain1 - chain_burn_total demo_chain1) ∧
    blk1.supply = genesis_block.supply + mint_total blk1.txs - burn_total blk1.txs :=
  ⟨demo_h8, (supply_conservation h0 demo_chain1 demo_reachable1 demo_h8).1,
    (supply_conservation h0 demo_chain1 demo_reachable1 demo_h8).2 0 (by decide)⟩

/-- C2: every chain reached from the genesis ledger by commits is
hash-linked: block 0 is the fixed genesis block, whose prev_hash is
sixty-four zero characters, and every later block's prev_hash equals the
previous block's block_hash while its index is the previous index plus
one. -/
theorem hash_linked (h : BlockData → String) (c : List Block) (hr : Reachable h c) :
    c.head? = some genesis_block ∧
    genesis_block.prev_hash = String.mk (List.replicate 64 '0') ∧
    ∀ i : ℕ, (hi : i + 1 < c.length) →
      (c.get ⟨i + 1, hi⟩).prev_hash = (c.get ⟨i, by omega⟩).block_hash ∧
      (c.get ⟨i + 1, hi⟩).index = (c.get ⟨i, by omega⟩).index + 1 := by
  refine ⟨hr.head?_eq, rfl, ?_⟩
  intro i hi
  have hstep := List.chain'_iff_get.mp hr.chain' i (by omega)
  simp only [StepRel] at hstep
  exact ⟨hstep.1, hstep.2.1⟩

/-- C2 witness: the linking invariant at the concrete two-block chain. -/
theorem hash_linked_witness :
    demo_chain1.head? = some genesis_block ∧
    blk1.prev_hash = genesis_block.block_hash ∧
    blk1.index = genesis_block.index + 1 := by
  have t := hash_linked h0 demo_chain1 demo_reachable1
  exact ⟨t.1, (t.2.2 0 (by decide)).1, (t.2.2 0 (by decide)).2⟩

/-- C3: on every chain reached with the full hash pipeline (canonical
key-sorted serialization of the block content without its block_hash field,
then the digest sha), each committed block's block_hash equals the digest
of that canonical serialization; recomputing the hash over the committed
block minus its block_hash field reproduces block_hash.  Proved for every
digest function sha, hence in particular for SHA-256. -/
theorem block_hash_recomputes (sha : String → String) (c : List Block)
    (hr : Reachable (json_block_hash sha) c) :
    ∀ i : ℕ, (hi : i < c.length) → 0 < i →
      (c.get ⟨i, hi⟩).block_hash =
        sha (dumps_sorted (block_data_json (c.get ⟨i, hi⟩).toBlockData)) := by
  intro i hi hpos
  obtain ⟨j, rfl⟩ : ∃ j, i = j + 1 := ⟨i - 1, by omega⟩
  have hstep := List.chain'_iff_get.mp hr.chain' j (by omega)
  simp only [StepRel] at hstep
  exact hstep.2.2.2

/-- C3 witness: the committed block of the concrete chain demo_chain2
reproduces its hash from the serialization of its content without the
block_hash field. -/
theorem block_hash_recomputes_witness :
    0 < 1 ∧
    blk2.block_hash = sha_id (dumps_sorted (block_data_json blk2.toBlockData)) :=
  ⟨by decide,
    block_hash_recomputes sha_id demo_chain2 demo_reachable2 1 (by decide) (by decide)⟩

/-- C10: loading with no ledger file does not fail: it initializes the
ledger and returns the one-block genesis chain, on which every wallet's
balance is 0 and the current supply is 0. -/
theorem load_missing_initializes :
    load_chain none = [genesis_block] ∧
    init_ledger none = [genesis_block] ∧
    (∀ wallet : String, get_balance wallet (load_chain none) = 0) ∧
    get_current_supply (load_chain none) = some 0 := by
  refine ⟨rfl, rfl, ?_, ?_⟩
  · intro wallet
    have h0q : (0.0 : ℚ) = 0 := by norm_num
    simp only [load_chain, init_ledger, get_balance, genesis_block, List.foldl_cons,
      List.foldl_nil]
    rw [h0q, Is8dp.zero.round8_eq]
  · simp [get_current_supply, load_chain, init_ledger, genesis_supply]

lemma genesis_balance (wallet : String) : get_balance wallet [genesis_block] = 0 := by
  have h0q : (0.0 : ℚ) = 0 := by norm_num
  simp only [get_balance, genesis_block, List.foldl_cons, List.foldl_nil]
  rw [h0q, Is8dp.zero.round8_eq]

/-- C5: compute_joules always returns the primary work activeEnergyKcal × 4184
as its first component, and rejects whenever that value is below 100000. -/
theorem primary_work_and_floor (d e m g k : ℚ) :
    (compute_joules d e m g k).1 = k * 4184 ∧
    ((compute_joules d e m g k).1 < 100000 → (compute_joules d e m g k).2 = false) := by
  constructor
  · show k * VDC.JOULES_PER_KCAL = k * 4184
    norm_num [VDC.JOULES_PER_KCAL]
  · intro hlt
    have hlt2 : k * VDC.JOULES_PER_KCAL < 100000 := hlt
    by_cases hdv : divergence_violation d e m g k = true
    · simp [compute_joules, hdv]
    · simp [compute_joules, hdv, hlt2]

/-- C5 witness: activeEnergyKcal = 20 yields workJoules 83680, below the
100 kJ floor, and is rejected. -/
theorem primary_work_and_floor_witness :
    (compute_joules 5000 60 75 VDC.GRAVITY 20).1 < 100000 ∧
    (compute_joules 5000 60 75 VDC.GRAVITY 20).2 = false := by
  have hlt : (compute_joules 5000 60 75 VDC.GRAVITY 20).1 < 100000 := by
    show (20 : ℚ) * VDC.JOULES_PER_KCAL < 100000
    norm_num [VDC.JOULES_PER_KCAL]
  exact ⟨hlt, (primary_work_and_floor 5000 60 75 VDC.GRAVITY 20).2 hlt⟩

/-- C4 counterexample: at distance 0, elevation -10, mass 75, Earth gravity
and 600 kcal, the kinematic estimate is -7357.5, so the spec's gate
condition (quotient over max(kinematicJoules, 1) above 1000 and
kinematicJoules < 10000) holds, yet the source gate does not fire and the
input is accepted; moreover kinematicJoules ≤ 1 while the source divisor is
kinematicJoules itself, not 1. -/
theorem divergence_gate_counterexample :
    spec_divergence_reject 0 (-10) 75 VDC.GRAVITY 600 ∧
    divergence_violation 0 (-10) 75 VDC.GRAVITY 600 = false ∧
    (compute_joules 0 (-10) 75 VDC.GRAVITY 600).2 = true ∧
    kinematic_joules 0 (-10) 75 VDC.GRAVITY ≤ 1 ∧
    (if kinematic_joules 0 (-10) 75 VDC.GRAVITY = 0 then (1 : ℚ)
      else kinematic_joules 0 (-10) 75 VDC.GRAVITY) ≠ 1 := by
  have hkj : kinematic_joules 0 (-10) 75 VDC.GRAVITY = -7357.5 := by
    norm_num [kinematic_joules, VDC.GRAVITY, VDC.ROLLING_COEFF]
  have hcond : ¬ ((600 : ℚ) * VDC.JOULES_PER_KCAL /
      (if kinematic_joules 0 (-10) 75 VDC.GRAVITY = 0 then 1
        else kinematic_joules 0 (-10) 75 VDC.GRAVITY) > 1000 ∧
      kinematic_joules 0 (-10) 75 VDC.GRAVITY < 10000) := by
    rintro ⟨ha, _⟩
    rw [hkj] at ha
    norm_num [VDC.JOULES_PER_KCAL] at ha
  have hdv : divergence_violation 0 (-10) 75 VDC.GRAVITY 600 = false := by
    simp only [divergence_violation]
    exact if_neg hcond
  have hge : ¬ ((600 : ℚ) * VDC.JOULES_PER_KCAL < 100000) := by
    norm_num [VDC.JOULES_PER_KCAL]
  refine ⟨?_, hdv, ?_, ?_, ?_⟩
  · refine ⟨?_, ?_⟩
    · rw [hkj, max_eq_right (by norm_num : (-7357.5 : ℚ) ≤ 1)]
      norm_num [VDC.JOULES_PER_KCAL]
    · rw [hkj]
      norm_num
  · simp only [compute_joules, hdv]
    simp [hge]
  · rw [hkj]
    norm_num
  · rw [hkj]
    norm_num

/-- C4 amended: the divergence gate fires exactly when
workJoules / (kinematicJoules if it is nonzero, else 1) exceeds 1000 and
kinematicJoules < 10000: the divisor is 1 exactly when kinematicJoules = 0
(Python's kinematic_joules or 1), not whenever kinematicJoules ≤ 1; a
quotient above 1000 with kinematicJoules ≥ 10000 never fires the gate, and
the result is rejected exactly when the minimum-work gate or the divergence
gate fires. -/
theorem divergence_gate_amended (d e m g k : ℚ) :
    (divergence_violation d e m g k = true ↔
      k * VDC.JOULES_PER_KCAL /
          (if kinematic_joules d e m g = 0 then 1 else kinematic_joules d e m g) > 1000 ∧
        kinematic_joules d e m g < 10000) ∧
    (10000 ≤ kinematic_joules d e m g → divergence_violation d e m g k = false) ∧
    ((compute_joules d e m g k).2 = false ↔
      (k * VDC.JOULES_PER_KCAL < 100000 ∨ divergence_violation d e m g k = true)) := by
  refine ⟨?_, ?_, ?_⟩
  · by_cases hc : (k * VDC.JOULES_PER_KCAL /
        (if kinematic_joules d e m g = 0 then 1 else kinematic_joules d e m g) > 1000 ∧
        kinematic_joules d e m g < 10000)
    · simp [divergence_violation, hc]
    · simp [divergence_violation, hc]
  · intro hk
    have hnot : ¬ (kinematic_joules d e m g < 10000) := not_lt.mpr hk
    simp [divergence_violation, hnot]
  · simp only [compute_joules]
    by_cases h1 : divergence_violation d e m g k = true
    · simp [h1]
    · by_cases h2 : k * VDC.JOULES_PER_KCAL < 100000
      · simp [h1, h2]
      · simp [h1, h2]

/-- C4 amended witness: with elevation 100 the kinematic estimate is 73575,
at least 10000, and the divergence gate does not fire. -/
theorem divergence_gate_amended_witness :
    (10000 : ℚ) ≤ kinematic_joules 0 100 75 VDC.GRAVITY ∧
    divergence_violation 0 100 75 VDC.GRAVITY 600 = false := by
  have hk : (10000 : ℚ) ≤ kinematic_joules 0 100 75 VDC.GRAVITY := by
    norm_num [kinematic_joules, VDC.GRAVITY, VDC.ROLLING_COEFF]
  exact ⟨hk, (divergence_gate_amended 0 100 75 VDC.GRAVITY 600).2.1 hk⟩

/-- C6: the exact mint amount of the spec's end-to-end example (600 kcal,
2510400 J at the issuance rate 0.00000095, the value 2.38488) is not a
dyadic rational, hence no binary floating-point value stores it exactly:
the source's float amount fields cannot carry exact 8-decimal fixed-point
semantics. -/
theorem mint_amount_not_dyadic :
    ¬ DyadicRepresentable
      ((compute_joules 5000 60 75 VDC.GRAVITY 600).1 * VDC.ALPHA_JOULES_TO_VDC) := by
  rintro ⟨m, e, hme⟩
  have hq : (compute_joules 5000 60 75 VDC.GRAVITY 600).1 * VDC.ALPHA_JOULES_TO_VDC =
      29811 / 12500 := by
    show (600 : ℚ) * VDC.JOULES_PER_KCAL * VDC.ALPHA_JOULES_TO_VDC = 29811 / 12500
    norm_num [VDC.JOULES_PER_KCAL, VDC.ALPHA_JOULES_TO_VDC]
  rw [hq] at hme
  have h2e : (0 : ℚ) < 2 ^ e := by positivity
  have hcross : (29811 : ℚ) * 2 ^ e = (m : ℚ) * 12500 :=
    (div_eq_div_iff (by norm_num) (ne_of_gt h2e)).mp hme
  have hz : (29811 : ℤ) * 2 ^ e = m * 12500 := by exact_mod_cast hcross
  have h5 : (5 : ℤ) ∣ 29811 * 2 ^ e := ⟨m * 2500, by linarith⟩
  have hp5 : Prime (5 : ℤ) := by
    rw [Int.prime_iff_natAbs_prime]
    norm_num
  rcases hp5.dvd_mul.mp h5 with h51 | h52
  · omega
  · have h52d := hp5.dvd_of_dvd_pow h52
    omega

/-- C7: handle_redeem rejects with InsufficientBalance and returns the chain
unchanged whenever the derived balance is below the requested amount;
otherwise it builds exactly one BURN transaction for that wallet and amount
and commits it as the single transaction of the appended block. -/
theorem redeem_insufficient_or_commit (h : BlockData → String) (wallet : String)
    (amount : ℚ) (ts : ℕ) (chain : List Block) (hne : chain ≠ []) :
    (get_balance wallet chain < amount →
      handle_redeem h wallet amount ts chain =
        (RedeemOutcome.insufficient_balance, chain)) ∧
    (¬ get_balance wallet chain < amount →
      ∃ b, commit h [create_burn_tx wallet amount ts] ts chain = some (b, chain ++ [b]) ∧
        handle_redeem h wallet amount ts chain = (RedeemOutcome.committed b, chain ++ [b]) ∧
        b.txs = [create_burn_tx wallet amount ts] ∧
        (create_burn_tx wallet amount ts).wallet = wallet ∧
        (create_burn_tx wallet amount ts).isBurn = true) := by
  constructor
  · intro hlt
    simp [handle_redeem, hlt]
  · intro hge
    obtain ⟨prev, hp⟩ := Option.isSome_iff_exists.mp (List.getLast?_isSome.mpr hne)
    have hcm : commit h [create_burn_tx wallet amount ts] ts chain =
        some (new_block h [create_burn_tx wallet amount ts] ts prev,
          chain ++ [new_block h [create_burn_tx wallet amount ts] ts prev]) := by
      simp [commit, hp]
    refine ⟨new_block h [create_burn_tx wallet amount ts] ts prev, hcm, ?_, rfl, rfl, rfl⟩
    simp [handle_redeem, hge, hcm]

/-- C7 witness: redeeming 1 VDC from an empty wallet on the genesis chain is
rejected with no state change. -/
theorem redeem_insufficient_or_commit_witness :
    get_balance ( "w") [genesis_block] < 1 ∧
    handle_redeem h0 ( "w") 1 0 [genesis_block] =
      (RedeemOutcome.insufficient_balance, [genesis_block]) := by
  have hlt : get_balance ( "w") [genesis_block] < 1 := by
    rw [genesis_balance]
    norm_num
  exact ⟨hlt,
    (redeem_insufficient_or_commit h0 ( "w") 1 0 [genesis_block] (by simp)).1 hlt⟩

/-- C8: every commit persists through the two-step atomic write: the trace of
observable filesystem states is exactly before-write, temporary-written, and
replaced; at every state the ledger path holds either the old content or the
full new chain; at the crash point after the temporary write the ledger is
untouched; after the atomic replace the ledger holds the new chain. -/
theorem commit_atomic_persistence (h : BlockData → String) (transactions : List Tx)
    (ts : ℕ) (s : FsState) (tr : List FsState)
    (hc : commit_trace h transactions ts s = some tr) :
    ∃ b chain2, commit h transactions ts (load_chain s.ledger) = some (b, chain2) ∧
      tr = [s, write_tmp s chain2, atomic_write s chain2] ∧
      (∀ st ∈ tr, st.ledger = s.ledger ∨ st.ledger = some chain2) ∧
      (write_tmp s chain2).ledger = s.ledger ∧
      (atomic_write s chain2).ledger = some chain2 ∧
      (atomic_write s chain2).tmp = none := by
  obtain ⟨⟨b, chain2⟩, hcm, htr⟩ := Option.map_eq_some'.mp hc
  subst htr
  refine ⟨b, chain2, hcm, rfl, ?_, rfl, rfl, rfl⟩
  intro st hst
  simp only [atomic_write_trace, List.mem_cons, List.not_mem_nil, or_false] at hst
  rcases hst with rfl | rfl | rfl
  · exact Or.inl rfl
  · exact Or.inl rfl
  · exact Or.inr rfl

/-- C8 witness: the concrete commit of tx1 on the genesis ledger file leaves
the ledger path intact at the crash point and installs the new chain after
the replace. -/
theorem commit_atomic_persistence_witness :
    (write_tmp fs0 demo_chain1).ledger = fs0.ledger ∧
    (atomic_write fs0 demo_chain1).ledger = some demo_chain1 ∧
    (atomic_write fs0 demo_chain1).tmp = none := by
  obtain ⟨b, chain2, hcm, htr, hmem, hw, ha, ht⟩ :=
    commit_atomic_persistence h0 [tx1] 7 fs0 (atomic_write_trace fs0 demo_chain1) rfl
  have hsome : some (blk1, demo_chain1) = some (b, chain2) := by
    rw [← hcm]
    rfl
  obtain ⟨rfl, rfl⟩ := Prod.mk.injEq .. |>.mp (Option.some.inj hsome)
  exact ⟨hw, ha, ht⟩

/-- C9 counterexample: nothing structural prevents hashing a block record
that already contains a block_hash value: the dict type admits both forms,
hash_block_data accepts both without any type error, and the canonical
serializations (hence the digests of an injective digest) silently differ. -/
theorem hashing_paradox_counterexample :
    hash_block_data sha_id (block_json_with_hash demo_data ( "PLACEHOLDER")) ≠
      hash_block_data sha_id (block_data_json demo_data) := by
  decide

/-- C9 amended: the hash-before-insert property holds behaviorally: every
block produced by commit has block_hash computed from its content without
the block_hash field (the clone taken before the mutation), but this is
ensured by operation ordering, not structurally: the dict form with a
placeholder hash is representable and hashable (see the counterexample). -/
theorem hash_before_insert (h : BlockData → String) (transactions : List Tx) (ts : ℕ)
    (chain : List Block) (b : Block) (chain2 : List Block)
    (hc : commit h transactions ts chain = some (b, chain2)) :
    b.block_hash = h b.toBlockData := by
  obtain ⟨prev, hp, hb, h2⟩ := commit_eq_some.mp hc
  subst hb
  rfl

/-- C9 amended witness: the concrete committed block blk1 carries the hash of
its own content without the hash field. -/
theorem hash_before_insert_witness : blk1.block_hash = h0 blk1.toBlockData :=
  hash_before_insert h0 [tx1] 7 [genesis_block] blk1 demo_chain1 demo_commit1

end VDCGenesis
